import Mathlib

/-!
Shallow embedding of the OpenAIStore vector-database adapter
(backend/open_webui/retrieval/vector/dbs/openai.py), together with a model
of the remote OpenAI embedding / vector-store endpoints the adapter calls.
The adapter functions below are translated line by line from the Python
source; the remote endpoints (an external service, not part of this
repository) are modelled from the external-interface section of the spec.
-/

/-- Scalar metadata values as the Python code handles them: the Python
value None, or a scalar (string or integer). -/
inductive Val where
  | null : Val
  | str : String → Val
  | int : Int → Val
deriving DecidableEq

/-- A Python dict of string keys to scalar values (metadata dicts and
metadata filters), kept as an ordered association list. -/
abbrev Metadata := List (String × Val)

/-- Python md.get(k): the stored value, or None when the key is absent. -/
def pyGet (m : Metadata) (k : String) : Val :=
  match m.find? (fun p => p.1 == k) with
  | some p => p.2
  | none => Val.null

/-- Key lookup that distinguishes a missing key from a stored None. -/
def getKey (m : Metadata) (k : String) : Option Val :=
  (m.find? (fun p => p.1 == k)).map (fun p => p.2)

/-- Python md[k] = v on a dict: replace the value when the key is present,
otherwise append the new binding at the end. -/
def dictInsert (m : Metadata) (k : String) (v : Val) : Metadata :=
  if m.any (fun p => p.1 == k) then m.map (fun p => if p.1 = k then (k, v) else p)
  else m ++ [(k, v)]

/-- The dict comprehension dropping one key, as in
`\x7bk: v for k, v in md.items() if k != "text"\x7d`. -/
def eraseKey (m : Metadata) (k : String) : Metadata :=
  m.filter (fun p => p.1 != k)

/-- An item handed to / returned by the adapter: VectorItem of
open_webui.retrieval.vector.main. `text` is a Val because items read back
via `md.get("text")` carry None when the stored metadata has no text key. -/
structure VectorItem where
  id : String
  text : Val
  vector : List Int
  metadata : Metadata
deriving DecidableEq

/-- One id/vector/metadata triple stored in a remote vector store. -/
structure StoredVec where
  id : String
  values : List Int
  metadata : Metadata
deriving DecidableEq

/-- One hit of the remote search endpoint: id, score, values, metadata. -/
structure Hit where
  id : String
  score : Int
  values : List Int
  metadata : Metadata
deriving DecidableEq

/-- One remote vector store: provider-assigned id, caller-supplied name,
and the stored vectors in provider order. -/
structure Store where
  id : String
  name : String
  items : List StoredVec
deriving DecidableEq

/-- The remote service state: all vector stores visible to the adapter's
credentials, plus a counter from which fresh store ids are minted. -/
structure Remote where
  stores : List Store
  nextId : Nat
deriving DecidableEq

/-- Combined state: the adapter's cached store id (`self.index`) and the
remote service. -/
structure St where
  index : Option String
  remote : Remote
deriving DecidableEq

/-- GetResult of open_webui.retrieval.vector.main: parallel lists wrapped
in a singleton outer list, as the adapter builds them. -/
structure GetResult where
  ids : List (List String)
  documents : List (List Val)
  metadatas : List (List Metadata)
deriving DecidableEq

/-- SearchResult: GetResult plus distances. -/
structure SearchResult where
  ids : List (List String)
  distances : List (List Int)
  documents : List (List Val)
  metadatas : List (List Metadata)
deriving DecidableEq

/-- A Python runtime error surfaced by the adapter itself (not by the
remote service): the out-of-range list access in `search`. -/
inductive PyError where
  | indexError : PyError
deriving DecidableEq

/-- Squared Euclidean distance on integer vectors (componentwise over the
common prefix), used by the remote search model to rank stored vectors
against the query vector. -/
def sqDist (u v : List Int) : Int :=
  ((u.zip v).map (fun p => (p.1 - p.2) * (p.1 - p.2))).foldl (fun a b => a + b) 0

/-- Insert one element into a list sorted by an integer key (stable). -/
def insertByKey (key : α → Int) (x : α) : List α → List α
  | [] => [x]
  | y :: ys => if key x ≤ key y then x :: y :: ys else y :: insertByKey key x ys

/-- Insertion sort by an integer key (stable). -/
def sortByKey (key : α → Int) : List α → List α
  | [] => []
  | x :: xs => insertByKey key x (sortByKey key xs)

/-- Modelled from the spec: remote vector-index search endpoint
(openai.Vector.search). Given an index id, it ranks the stored vectors of
the first store with that id by distance to the query vector and returns
the top_k nearest as hits carrying id, score, values and metadata. An
unknown index yields no hits. -/
def remoteSearch (r : Remote) (idx : Option String) (qv : List Int) (topk : Nat) : List Hit :=
  match idx with
  | none => []
  | some i =>
    match r.stores.find? (fun st => st.id == i) with
    | none => []
    | some st =>
      ((sortByKey (fun w => sqDist qv w.values) st.items).map
        (fun w => Hit.mk w.id (sqDist qv w.values) w.values w.metadata)).take topk

/-- One step of the remote upsert: insert-or-update a single triple by id. -/
def upsertStep (acc : List StoredVec) (v : StoredVec) : List StoredVec :=
  if acc.any (fun w => w.id == v.id) then acc.map (fun w => if w.id = v.id then v else w)
  else acc ++ [v]

/-- Modelled from the spec: insert-or-update by id (glossary: Upsert),
applied left to right over the upserted batch. -/
def upsertItems (cur : List StoredVec) (vs : List StoredVec) : List StoredVec :=
  vs.foldl upsertStep cur

/-- Apply an upsert batch to the store with the given id; other stores are
untouched. -/
def updStore (i : String) (vs : List StoredVec) (st : Store) : Store :=
  if st.id = i then Store.mk st.id st.name (upsertItems st.items vs) else st

/-- Modelled from the spec: remote upsert endpoint (openai.Vector.upsert):
the store with the given index id receives the batch. -/
def remoteUpsert (r : Remote) (idx : Option String) (vs : List StoredVec) : Remote :=
  match idx with
  | none => r
  | some i => Remote.mk (r.stores.map (updStore i vs)) r.nextId

/-- Remove the items with the given ids from the store with the given id;
other stores are untouched. -/
def delIdsStore (i : String) (ids : List String) (st : Store) : Store :=
  if st.id = i then
    Store.mk st.id st.name (st.items.filter (fun w => !(ids.contains w.id)))
  else st

/-- Modelled from the spec: remote delete-by-ids endpoint
(openai.Vector.delete with ids): items whose id occurs in the list are
removed from the store with the given index id. -/
def remoteDeleteIds (r : Remote) (idx : Option String) (ids : List String) : Remote :=
  match idx with
  | none => r
  | some i => Remote.mk (r.stores.map (delIdsStore i ids)) r.nextId

/-- The conjunctive metadata match of `query`, exactly as the Python
source computes it: `all(it.metadata.get(k) == v for k, v in filter.items())`,
with dict.get returning None for a missing key. -/
def matchesFilter (f : Metadata) (m : Metadata) : Bool :=
  f.all (fun kv => pyGet m kv.1 == kv.2)

/-- Modelled from the spec: remote delete-by-filter endpoint
(openai.Vector.delete with a metadata filter); the provider applies the
conjunctive exact-match predicate (glossary: Metadata filter). -/
def remoteDeleteFilter (r : Remote) (idx : Option String) (f : Metadata) : Remote :=
  match idx with
  | none => r
  | some i =>
    Remote.mk
      (r.stores.map (fun st =>
        if st.id = i then
          Store.mk st.id st.name (st.items.filter (fun w => !(matchesFilter f w.metadata)))
        else st))
      r.nextId

/-- The configured placeholder vector dimensionality
(`self._get_config("DUMMY_DIM", 1536)`), fixed at its default. -/
def DUMMY_DIM : Nat := 1536

/-- The fixed page size of the emulated listing (top_k=1000). -/
def PAGE_SIZE : Nat := 1000

namespace OpenAIStore

/-- OpenAIStore.has_collection: list all remote stores, scan for the first
entry whose name matches, cache its id in self.index and return True;
otherwise return False leaving the state untouched. -/
def has_collection (s : St) (c : String) : Bool × St :=
  match s.remote.stores.find? (fun e => e.name == c) with
  | some e => (true, St.mk (some e.id) s.remote)
  | none => (false, s)

/-- OpenAIStore.create_collection: POST /vector_stores creates a store
with the given name and a fresh provider-assigned id (modelled from the
spec as minting from a counter); the adapter caches the new id. -/
def create_collection (s : St) (c : String) : St :=
  let newId := "vs-" ++ toString s.remote.nextId
  St.mk (some newId)
    (Remote.mk (s.remote.stores ++ [Store.mk newId c []]) (s.remote.nextId + 1))

/-- OpenAIStore.add_items_to_collection: ensure the collection exists
(creating it if absent), embed every item text in one order-preserving
batch (modelled from the spec: the remote embedding endpoint is an
arbitrary per-text function `embedOne`), write each item text into its
metadata under the reserved "text" key, and upsert the triples. -/
def add_items_to_collection (embedOne : Val → List Int) (s : St) (c : String)
    (items : List VectorItem) : St :=
  let hc := has_collection s c
  let s2 := if hc.fst then hc.snd else create_collection hc.snd c
  let texts := items.map (fun it => it.text)
  let embeds := texts.map embedOne
  let vectors := (items.zip embeds).map
    (fun p => StoredVec.mk p.1.id p.2 (dictInsert p.1.metadata "text" p.1.text))
  St.mk s2.index (remoteUpsert s2.remote s2.index vectors)

/-- The batch of stored triples that add_items_to_collection builds from
an item list: id, embedded text, and metadata with the text written under
the reserved "text" key. -/
def vsOf (embedOne : Val → List Int) (items : List VectorItem) : List StoredVec :=
  items.map (fun it2 =>
    StoredVec.mk it2.id (embedOne it2.text) (dictInsert it2.metadata "text" it2.text))

/-- OpenAIStore.insert delegates to add_items_to_collection. -/
def insert (embedOne : Val → List Int) (s : St) (c : String) (items : List VectorItem) : St :=
  add_items_to_collection embedOne s c items

/-- OpenAIStore.upsert delegates to add_items_to_collection. -/
def upsert (embedOne : Val → List Int) (s : St) (c : String) (items : List VectorItem) : St :=
  add_items_to_collection embedOne s c items

/-- OpenAIStore.search: None when the collection is absent; otherwise the
remote is queried with vectors[0] (an IndexError when the list is empty)
and top_k=limit, and the hits are unpacked into parallel lists with the
reserved "text" metadata key split out into documents. -/
def search (s : St) (c : String) (vectors : List (List Int)) (limit : Nat) :
    Except PyError (Option SearchResult) × St :=
  let hc := has_collection s c
  if hc.fst then
    match vectors.head? with
    | none => (Except.error PyError.indexError, hc.snd)
    | some v =>
      let hits := remoteSearch hc.snd.remote hc.snd.index v limit
      (Except.ok (some (SearchResult.mk
        [hits.map (fun h => h.id)]
        [hits.map (fun h => h.score)]
        [hits.map (fun h => pyGet h.metadata "text")]
        [hits.map (fun h => eraseKey h.metadata "text")])), hc.snd)
  else (Except.ok none, hc.snd)

/-- OpenAIStore.delete_collection: a no-op when the collection is absent;
otherwise list up to 1000 item ids via a zero-vector search and delete
exactly those ids (the store resource itself is kept). -/
def delete_collection (s : St) (c : String) : St :=
  let hc := has_collection s c
  if hc.fst then
    let hits := remoteSearch hc.snd.remote hc.snd.index (List.replicate DUMMY_DIM 0) PAGE_SIZE
    let ids := hits.map (fun h => h.id)
    if ids.isEmpty then hc.snd
    else St.mk hc.snd.index (remoteDeleteIds hc.snd.remote hc.snd.index ids)
  else hc.snd

/-- OpenAIStore.list_items: empty when the collection is absent; otherwise
up to 1000 hits of a zero-vector search, each unpacked into a VectorItem
whose text is md.get("text") and whose metadata drops the "text" key. -/
def list_items (s : St) (c : String) : List VectorItem × St :=
  let hc := has_collection s c
  if hc.fst then
    let hits := remoteSearch hc.snd.remote hc.snd.index (List.replicate DUMMY_DIM 0) PAGE_SIZE
    (hits.map (fun h =>
      VectorItem.mk h.id (pyGet h.metadata "text") h.values (eraseKey h.metadata "text")), hc.snd)
  else ([], hc.snd)

/-- Python matched[:limit] for an optional limit. -/
def truncOpt (limit : Option Nat) (l : List α) : List α :=
  match limit with
  | some n => l.take n
  | none => l

/-- OpenAIStore.query: None when the collection is absent; otherwise the
listed items are filtered by the conjunctive metadata match, truncated to
the optional limit, and returned as a GetResult — None when the truncated
match list is empty. -/
def query (s : St) (c : String) (f : Metadata) (limit : Option Nat) : Option GetResult × St :=
  let hc := has_collection s c
  if hc.fst then
    let li := list_items hc.snd c
    let matched := truncOpt limit (li.fst.filter (fun it => matchesFilter f it.metadata))
    if matched.isEmpty then (none, li.snd)
    else
      (some (GetResult.mk
        [matched.map (fun it => it.id)]
        [matched.map (fun it => it.text)]
        [matched.map (fun it => it.metadata)]), li.snd)
  else (none, hc.snd)

/-- OpenAIStore.get: None when the collection is absent or the listed item
set is empty; otherwise all listed items as a GetResult. -/
def get (s : St) (c : String) : Option GetResult × St :=
  let hc := has_collection s c
  if hc.fst then
    let li := list_items hc.snd c
    if li.fst.isEmpty then (none, li.snd)
    else
      (some (GetResult.mk
        [li.fst.map (fun it => it.id)]
        [li.fst.map (fun it => it.text)]
        [li.fst.map (fun it => it.metadata)]), li.snd)
  else (none, hc.snd)

/-- Python truthiness of the optional arguments of delete: None and the
empty container are falsy. -/
def truthy : Option (List α) → Bool
  | none => false
  | some l => !l.isEmpty

/-- OpenAIStore.delete: a no-op when the collection is absent; otherwise
delete by ids when a non-empty id list is given, else by metadata filter
when a non-empty filter is given, else do nothing. -/
def delete (s : St) (c : String) (ids : Option (List String)) (f : Option Metadata) : St :=
  let hc := has_collection s c
  if hc.fst then
    if truthy ids then
      St.mk hc.snd.index (remoteDeleteIds hc.snd.remote hc.snd.index (ids.getD []))
    else if truthy f then
      St.mk hc.snd.index (remoteDeleteFilter hc.snd.remote hc.snd.index (f.getD []))
    else hc.snd
  else hc.snd

/-- Modelled from the spec: DELETE /vector_stores/(id) removes the store
with that id from the remote listing. -/
def remoteDeleteStore (r : Remote) (i : String) : Remote :=
  Remote.mk (r.stores.filter (fun st => st.id != i)) r.nextId

/-- OpenAIStore.reset: list all remote stores once and delete each listed
id in turn, but only when the id is truthy (`if vid:` in the source; the
empty string models a falsy listing id); the cached index is not touched. -/
def reset (s : St) : St :=
  let ids := s.remote.stores.map (fun st => st.id)
  St.mk s.index (ids.foldl (fun r i => if i ≠ "" then remoteDeleteStore r i else r) s.remote)

end OpenAIStore

/-- A concrete state with one store named "c" holding one item with empty
metadata. -/
def exSt1 : St := St.mk none (Remote.mk [Store.mk "i0" "c" [StoredVec.mk "x" [] []]] 0)

/-- A concrete state with one store named "c" holding items "x" and "y". -/
def exSt2 : St :=
  St.mk none (Remote.mk
    [Store.mk "i0" "c" [StoredVec.mk "x" [] [("k", Val.str "v")], StoredVec.mk "y" [] []]] 0)

/-- The store of exStBig: 1001 stored vectors. -/
def exBigStore : Store := Store.mk "i0" "c" (List.replicate 1001 (StoredVec.mk "x" [] []))

/-- A concrete state whose single store named "c" holds 1001 items. -/
def exStBig : St := St.mk none (Remote.mk [exBigStore] 0)

/-- The state with no remote stores at all. -/
def exStEmpty : St := St.mk none (Remote.mk [] 0)

/-- A concrete state whose single store named "c" carries an empty
(Python-falsy) listing id. -/
def exStEmptyId : St := St.mk none (Remote.mk [Store.mk "" "c" []] 0)

/-- A constant embedding function for concrete examples. -/
def embed0 : Val → List Int := fun _ => [0]

/-- A concrete item for round-trip examples: its metadata carries both a
payload key and a pre-existing "text" key that the adapter overwrites. -/
def exItem : VectorItem :=
  VectorItem.mk "x" (Val.str "T") [5, 6] [("a", Val.str "b"), ("text", Val.str "old")]

lemma mem_insertByKey {α : Type _} (key : α → Int) (x a : α) (l : List α) :
    a ∈ insertByKey key x l ↔ a = x ∨ a ∈ l := by
  induction l with
  | nil => simp [insertByKey]
  | cons y ys ih =>
    simp only [insertByKey]
    by_cases h : key x ≤ key y
    · simp [h]
    · simp only [h, if_false, List.mem_cons, ih]
      tauto

lemma length_insertByKey {α : Type _} (key : α → Int) (x : α) (l : List α) :
    (insertByKey key x l).length = l.length + 1 := by
  induction l with
  | nil => simp [insertByKey]
  | cons y ys ih =>
    simp only [insertByKey]
    by_cases h : key x ≤ key y
    · simp [h]
    · simp only [h, if_false, List.length_cons, ih]

lemma mem_sortByKey {α : Type _} (key : α → Int) (a : α) (l : List α) :
    a ∈ sortByKey key l ↔ a ∈ l := by
  induction l with
  | nil => simp [sortByKey]
  | cons y ys ih => simp [sortByKey, mem_insertByKey, ih]

lemma length_sortByKey {α : Type _} (key : α → Int) (l : List α) :
    (sortByKey key l).length = l.length := by
  induction l with
  | nil => simp [sortByKey]
  | cons y ys ih => simp [sortByKey, length_insertByKey, ih]

lemma find?_map_of_pres {α : Type _} (g : α → α) (p : α → Bool)
    (h : ∀ a, p (g a) = p a) (l : List α) :
    (l.map g).find? p = (l.find? p).map g := by
  induction l with
  | nil => simp
  | cons a as ih =>
    simp only [List.map_cons, List.find?_cons, h a]
    cases hp : p a <;> simp [ih]

lemma zip_self_map {α β : Type _} (l : List α) (g : α → β) :
    l.zip (l.map g) = l.map (fun a => (a, g a)) := by
  induction l with
  | nil => rfl
  | cons a as ih => simp [ih]

lemma find?_key_map_update (m : Metadata) (k : String) (v : Val)
    (h : m.any (fun p => p.1 == k) = true) :
    (m.map (fun p => if p.1 = k then (k, v) else p)).find? (fun p => p.1 == k) = some (k, v) := by
  induction m with
  | nil => simp at h
  | cons q qs ih =>
    by_cases hqk : q.1 = k
    · simp [List.find?_cons, hqk]
    · have hq : (q.1 == k) = false := by simp [hqk]
      have h2 : qs.any (fun p => p.1 == k) = true := by
        have h3 := h
        simp only [List.any_cons, hq, Bool.false_or] at h3
        exact h3
      simp [List.find?_cons, hqk, hq, ih h2]

lemma find?_key_append_absent (m : Metadata) (k : String) (v : Val)
    (h : m.any (fun p => p.1 == k) = false) :
    ((m ++ [(k, v)]).find? (fun p => p.1 == k)) = some (k, v) := by
  induction m with
  | nil => simp
  | cons q qs ih =>
    simp only [List.any_cons, Bool.or_eq_false_iff] at h
    simp only [List.cons_append, List.find?_cons, h.1, if_false]
    simpa using ih h.2

lemma pyGet_dictInsert_self (m : Metadata) (k : String) (v : Val) :
    pyGet (dictInsert m k v) k = v := by
  unfold pyGet dictInsert
  cases hb : m.any (fun p => p.1 == k) with
  | true => rw [if_pos rfl, find?_key_map_update m k v hb]
  | false => rw [if_neg (by simp), find?_key_append_absent m k v hb]

lemma filter_ne_map_update (m : Metadata) (k : String) (v : Val) :
    ((m.map (fun p => if p.1 = k then (k, v) else p)).filter (fun p => p.1 != k)) =
      m.filter (fun p => p.1 != k) := by
  induction m with
  | nil => rfl
  | cons q qs ih =>
    by_cases hqk : q.1 = k
    · simp [List.filter_cons, hqk, ih]
    · simp [List.filter_cons, hqk, ih]

lemma eraseKey_dictInsert (m : Metadata) (k : String) (v : Val) :
    eraseKey (dictInsert m k v) k = eraseKey m k := by
  unfold eraseKey dictInsert
  cases hb : m.any (fun p => p.1 == k) with
  | true => rw [if_pos rfl, filter_ne_map_update]
  | false =>
    rw [if_neg (by simp), List.filter_append]
    simp

lemma updStore_id (i : String) (vs : List StoredVec) (st : Store) :
    (updStore i vs st).id = st.id := by
  unfold updStore
  by_cases h : st.id = i <;> simp [h]

lemma updStore_name (i : String) (vs : List StoredVec) (st : Store) :
    (updStore i vs st).name = st.name := by
  unfold updStore
  by_cases h : st.id = i <;> simp [h]

lemma delIdsStore_id (i : String) (ids : List String) (st : Store) :
    (delIdsStore i ids st).id = st.id := by
  unfold delIdsStore
  by_cases h : st.id = i <;> simp [h]

lemma delIdsStore_name (i : String) (ids : List String) (st : Store) :
    (delIdsStore i ids st).name = st.name := by
  unfold delIdsStore
  by_cases h : st.id = i <;> simp [h]

lemma find?_append_none {α : Type _} {p : α → Bool} {l1 : List α} (l2 : List α)
    (h : l1.find? p = none) : ((l1 ++ l2).find? p) = l2.find? p := by
  induction l1 with
  | nil => simp
  | cons a as ih =>
    rw [List.find?_cons] at h
    cases hp : p a with
    | true =>
      rw [hp] at h
      simp at h
    | false =>
      rw [hp] at h
      simp only [List.cons_append, List.find?_cons, hp]
      exact ih h

lemma upsertStep_sets (cur : List StoredVec) (v : StoredVec) :
    ∀ w ∈ upsertStep cur v, w.id = v.id → w = v := by
  intro w hw hid
  unfold upsertStep at hw
  by_cases h : cur.any (fun w => w.id == v.id) = true
  · rw [if_pos h] at hw
    rcases List.mem_map.mp hw with ⟨w0, hw0, he⟩
    by_cases h0 : w0.id = v.id
    · rw [if_pos h0] at he
      exact he.symm
    · rw [if_neg h0] at he
      rw [← he] at hid
      exact absurd hid h0
  · rw [if_neg h] at hw
    rcases List.mem_append.mp hw with h1 | h1
    · rw [List.any_eq_true] at h
      exact absurd ⟨w, h1, by simp [hid]⟩ h
    · simpa using h1

lemma upsertStep_keep (x : String) (v u : StoredVec) (cur : List StoredVec)
    (hc : ∀ w ∈ cur, w.id = x → w = v) (hu : u.id = x → u = v) :
    ∀ w ∈ upsertStep cur u, w.id = x → w = v := by
  intro w hw hid
  unfold upsertStep at hw
  by_cases h : cur.any (fun w => w.id == u.id) = true
  · rw [if_pos h] at hw
    rcases List.mem_map.mp hw with ⟨w0, hw0, he⟩
    by_cases h0 : w0.id = u.id
    · rw [if_pos h0] at he
      rw [← he] at hid
      exact he ▸ hu hid
    · rw [if_neg h0] at he
      exact hc w (he ▸ hw0) hid
  · rw [if_neg h] at hw
    rcases List.mem_append.mp hw with h1 | h1
    · exact hc w h1 hid
    · have : w = u := by simpa using h1
      exact this ▸ hu (this ▸ hid)

lemma upsertItems_keep (x : String) (v : StoredVec) :
    ∀ (vs cur : List StoredVec),
      (∀ w ∈ cur, w.id = x → w = v) →
      (∀ w ∈ vs, w.id = x → w = v) →
      ∀ w ∈ upsertItems cur vs, w.id = x → w = v := by
  intro vs
  induction vs with
  | nil => exact fun cur hc _ w hw => hc w hw
  | cons u us ih =>
    intro cur hc hv w hw
    have hu : u.id = x → u = v := hv u (List.mem_cons_self u us)
    have hrest : ∀ w2 ∈ us, w2.id = x → w2 = v :=
      fun w2 hw2 => hv w2 (List.mem_cons_of_mem u hw2)
    exact ih (upsertStep cur u) (upsertStep_keep x v u cur hc hu) hrest w hw

lemma upsertItems_mem_set :
    ∀ (vs cur : List StoredVec) (v : StoredVec),
      v ∈ vs →
      (∀ w ∈ vs, w.id = v.id → w = v) →
      ∀ w ∈ upsertItems cur vs, w.id = v.id → w = v := by
  intro vs
  induction vs with
  | nil =>
    intro cur v hv
    exact absurd hv (List.not_mem_nil v)
  | cons u us ih =>
    intro cur v hv huniq w hw
    have hrest : ∀ w2 ∈ us, w2.id = v.id → w2 = v :=
      fun w2 hw2 => huniq w2 (List.mem_cons_of_mem u hw2)
    rcases List.mem_cons.mp hv with h | h
    · subst h
      exact upsertItems_keep v.id v us (upsertStep cur v)
        (upsertStep_sets cur v) hrest w hw
    · exact ih (upsertStep cur u) v h hrest w hw

namespace OpenAIStore

lemma has_collection_fst_iff (s : St) (c : String) :
    (has_collection s c).fst = true ↔ ∃ st ∈ s.remote.stores, st.name = c := by
  unfold has_collection
  cases h : s.remote.stores.find? (fun e => e.name == c) with
  | none =>
    rw [List.find?_eq_none] at h
    simp only []
    constructor
    · intro hf; simp at hf
    · rintro ⟨st, hm, hn⟩
      exact absurd (by simpa using hn) (by simpa using h st hm)
  | some e =>
    simp only []
    constructor
    · intro _
      refine ⟨e, List.mem_of_find?_eq_some h, ?_⟩
      simpa using List.find?_some h
    · intro _; trivial

lemma list_items_fst_index (a b : Option String) (r : Remote) (c : String) :
    (list_items (St.mk a r) c).fst = (list_items (St.mk b r) c).fst := by
  unfold list_items has_collection
  cases h : r.stores.find? (fun e => e.name == c) <;> simp [h]

lemma truncOpt_mem {α : Type _} (lim : Option Nat) (l : List α) (x : α)
    (h : x ∈ truncOpt lim l) : x ∈ l := by
  cases lim with
  | none => exact h
  | some n => exact List.take_subset n l h

lemma has_collection_none (s : St) (c : String)
    (hfind : s.remote.stores.find? (fun e => e.name == c) = none) :
    has_collection s c = (false, s) := by
  unfold has_collection
  rw [hfind]

lemma has_collection_some (s : St) (c : String) (e : Store)
    (hfind : s.remote.stores.find? (fun e => e.name == c) = some e) :
    has_collection s c = (true, St.mk (some e.id) s.remote) := by
  unfold has_collection
  rw [hfind]

lemma list_items_none (s : St) (c : String)
    (hfind : s.remote.stores.find? (fun e => e.name == c) = none) :
    list_items s c = ([], s) := by
  unfold list_items has_collection
  rw [hfind]
  rfl

lemma list_items_some (s : St) (c : String) (e : Store)
    (hfind : s.remote.stores.find? (fun e => e.name == c) = some e) :
    list_items s c =
      ((remoteSearch s.remote (some e.id) (List.replicate DUMMY_DIM 0) PAGE_SIZE).map
        (fun h => VectorItem.mk h.id (pyGet h.metadata "text") h.values
          (eraseKey h.metadata "text")),
       St.mk (some e.id) s.remote) := by
  unfold list_items has_collection
  rw [hfind]
  rfl

lemma query_fst_none (s : St) (c : String) (f : Metadata) (lim : Option Nat)
    (hfind : s.remote.stores.find? (fun e => e.name == c) = none) :
    (query s c f lim).fst = none := by
  unfold query has_collection
  rw [hfind]
  rfl

lemma query_fst_some (s : St) (c : String) (f : Metadata) (lim : Option Nat) (e : Store)
    (hfind : s.remote.stores.find? (fun e => e.name == c) = some e) :
    (query s c f lim).fst =
      (if (truncOpt lim ((list_items (St.mk (some e.id) s.remote) c).fst.filter
            (fun it => matchesFilter f it.metadata))).isEmpty then none
       else some (GetResult.mk
         [(truncOpt lim ((list_items (St.mk (some e.id) s.remote) c).fst.filter
            (fun it => matchesFilter f it.metadata))).map (fun it => it.id)]
         [(truncOpt lim ((list_items (St.mk (some e.id) s.remote) c).fst.filter
            (fun it => matchesFilter f it.metadata))).map (fun it => it.text)]
         [(truncOpt lim ((list_items (St.mk (some e.id) s.remote) c).fst.filter
            (fun it => matchesFilter f it.metadata))).map (fun it => it.metadata)])) := by
  unfold query has_collection
  rw [hfind]
  by_cases hE : (truncOpt lim ((list_items (St.mk (some e.id) s.remote) c).fst.filter
      (fun it => matchesFilter f it.metadata))).isEmpty
  · simp [hE]
  · simp [hE]

lemma get_fst_none (s : St) (c : String)
    (hfind : s.remote.stores.find? (fun e => e.name == c) = none) :
    (get s c).fst = none := by
  unfold get has_collection
  rw [hfind]
  rfl

lemma get_fst_some (s : St) (c : String) (e : Store)
    (hfind : s.remote.stores.find? (fun e => e.name == c) = some e) :
    (get s c).fst =
      (if (list_items (St.mk (some e.id) s.remote) c).fst.isEmpty then none
       else some (GetResult.mk
         [(list_items (St.mk (some e.id) s.remote) c).fst.map (fun it => it.id)]
         [(list_items (St.mk (some e.id) s.remote) c).fst.map (fun it => it.text)]
         [(list_items (St.mk (some e.id) s.remote) c).fst.map (fun it => it.metadata)])) := by
  unfold get has_collection
  rw [hfind]
  by_cases hE : (list_items (St.mk (some e.id) s.remote) c).fst.isEmpty
  · simp [hE]
  · simp [hE]


lemma remoteSearch_found (r : Remote) (i : String) (qv : List Int) (k : Nat) (st : Store)
    (h : r.stores.find? (fun e => e.id == i) = some st) :
    remoteSearch r (some i) qv k =
      ((sortByKey (fun w => sqDist qv w.values) st.items).map
        (fun w => Hit.mk w.id (sqDist qv w.values) w.values w.metadata)).take k := by
  simp only [remoteSearch]
  rw [h]

lemma listed_after_upsert (l : List Store) (n : Nat) (i : String) (vs : List StoredVec)
    (c : String) (a : Option String) (st0 : Store)
    (hfind : l.find? (fun e => e.name == c) = some st0)
    (hid : st0.id = i)
    (v : StoredVec) (hv : v ∈ vs) (hvu : ∀ w ∈ vs, w.id = v.id → w = v) :
    ∀ rit ∈ (list_items (St.mk a (Remote.mk (l.map (updStore i vs)) n)) c).fst,
      rit.id = v.id →
        rit.text = pyGet v.metadata "text" ∧ rit.metadata = eraseKey v.metadata "text" := by
  intro rit hrit hritid
  have hpres : ∀ st : Store,
      ((fun e : Store => e.name == c) (updStore i vs st)) = ((fun e : Store => e.name == c) st) := by
    intro st
    simp [updStore_name]
  have hfind2 : (l.map (updStore i vs)).find? (fun e => e.name == c) =
      some (updStore i vs st0) := by
    rw [find?_map_of_pres (updStore i vs) _ hpres l, hfind]
    rfl
  rw [list_items_some _ _ _ hfind2] at hrit
  have hids : (updStore i vs st0).id = i := by rw [updStore_id, hid]
  rw [hids] at hrit
  have hpres2 : ∀ st : Store,
      ((fun e : Store => e.id == i) (updStore i vs st)) = ((fun e : Store => e.id == i) st) := by
    intro st
    simp [updStore_id]
  have hsome : ∃ st1, l.find? (fun e => e.id == i) = some st1 := by
    cases hf : l.find? (fun e => e.id == i) with
    | some st1 => exact ⟨st1, rfl⟩
    | none =>
      exfalso
      rw [List.find?_eq_none] at hf
      exact (by simpa [hid] using hf st0 (List.mem_of_find?_eq_some hfind))
  obtain ⟨st1, hst1⟩ := hsome
  have hst1id : st1.id = i := by simpa using List.find?_some hst1
  have hfind3 : (l.map (updStore i vs)).find? (fun e => e.id == i) =
      some (updStore i vs st1) := by
    rw [find?_map_of_pres (updStore i vs) _ hpres2 l, hst1]
    rfl
  rw [remoteSearch_found _ i _ _ _ hfind3] at hrit
  have hupd : (updStore i vs st1).items = upsertItems st1.items vs := by
    unfold updStore
    rw [if_pos hst1id]
  rw [hupd] at hrit
  rcases List.mem_map.mp hrit with ⟨h, hh, hre⟩
  have hh2 := List.take_subset _ _ hh
  rcases List.mem_map.mp hh2 with ⟨w, hw, hwh⟩
  have hw2 : w ∈ upsertItems st1.items vs := (mem_sortByKey _ w _).mp hw
  subst hre
  subst hwh
  simp only [] at hritid ⊢
  have hwv : w = v := upsertItems_mem_set vs st1.items v hv hvu w hw2 hritid
  rw [hwv]
  exact ⟨rfl, rfl⟩


lemma vsOf_eq (embedOne : Val → List Int) (items : List VectorItem) :
    (items.zip ((items.map (fun it2 => it2.text)).map embedOne)).map
      (fun p => StoredVec.mk p.1.id p.2 (dictInsert p.1.metadata "text" p.1.text)) =
      vsOf embedOne items := by
  rw [List.map_map, zip_self_map, List.map_map]
  rfl

lemma add_items_found (embedOne : Val → List Int) (s : St) (c : String)
    (items : List VectorItem) (st0 : Store)
    (hfind : s.remote.stores.find? (fun e => e.name == c) = some st0) :
    add_items_to_collection embedOne s c items =
      St.mk (some st0.id)
        (Remote.mk (s.remote.stores.map (updStore st0.id (vsOf embedOne items)))
          s.remote.nextId) := by
  unfold add_items_to_collection has_collection
  rw [hfind]
  simp only [remoteUpsert]
  rw [vsOf_eq]
  simp

lemma add_items_new (embedOne : Val → List Int) (s : St) (c : String)
    (items : List VectorItem)
    (hfind : s.remote.stores.find? (fun e => e.name == c) = none) :
    add_items_to_collection embedOne s c items =
      St.mk (some ("vs-" ++ toString s.remote.nextId))
        (Remote.mk
          ((s.remote.stores ++ [Store.mk ("vs-" ++ toString s.remote.nextId) c []]).map
            (updStore ("vs-" ++ toString s.remote.nextId) (vsOf embedOne items)))
          (s.remote.nextId + 1)) := by
  unfold add_items_to_collection has_collection create_collection
  rw [hfind]
  simp only [remoteUpsert]
  rw [vsOf_eq]
  simp

lemma vsOf_uniq (embedOne : Val → List Int) (items : List VectorItem) (it : VectorItem)
    (huniq : ∀ it2 ∈ items, it2.id = it.id → it2 = it) :
    ∀ w ∈ vsOf embedOne items,
      w.id = (StoredVec.mk it.id (embedOne it.text) (dictInsert it.metadata "text" it.text)).id →
      w = StoredVec.mk it.id (embedOne it.text) (dictInsert it.metadata "text" it.text) := by
  intro w hw hwid
  rcases List.mem_map.mp hw with ⟨it2, hit2, he⟩
  subst he
  have h2 : it2 = it := huniq it2 hit2 hwid
  rw [h2]

lemma listed_after_add (embedOne : Val → List Int) (s : St) (c : String)
    (items : List VectorItem) (it : VectorItem)
    (hmem : it ∈ items)
    (huniq : ∀ it2 ∈ items, it2.id = it.id → it2 = it) :
    ∀ rit ∈ (list_items (add_items_to_collection embedOne s c items) c).fst,
      rit.id = it.id →
        rit.text = it.text ∧ rit.metadata = eraseKey it.metadata "text" := by
  have hvmem : StoredVec.mk it.id (embedOne it.text) (dictInsert it.metadata "text" it.text) ∈
      vsOf embedOne items := List.mem_map_of_mem _ hmem
  have hvu := vsOf_uniq embedOne items it huniq
  intro rit hrit hritid
  cases hfind : s.remote.stores.find? (fun e => e.name == c) with
  | some st0 =>
    rw [add_items_found embedOne s c items st0 hfind] at hrit
    have hres := listed_after_upsert s.remote.stores s.remote.nextId st0.id
      (vsOf embedOne items) c (some st0.id) st0 hfind rfl
      (StoredVec.mk it.id (embedOne it.text) (dictInsert it.metadata "text" it.text))
      hvmem hvu rit hrit hritid
    simp only [] at hres
    rw [pyGet_dictInsert_self, eraseKey_dictInsert] at hres
    exact hres
  | none =>
    rw [add_items_new embedOne s c items hfind] at hrit
    have hfa : (s.remote.stores ++
        [Store.mk ("vs-" ++ toString s.remote.nextId) c []]).find? (fun e => e.name == c) =
        some (Store.mk ("vs-" ++ toString s.remote.nextId) c []) := by
      rw [find?_append_none _ hfind]
      simp [List.find?_cons]
    have hres := listed_after_upsert
      (s.remote.stores ++ [Store.mk ("vs-" ++ toString s.remote.nextId) c []])
      (s.remote.nextId + 1) ("vs-" ++ toString s.remote.nextId)
      (vsOf embedOne items) c (some ("vs-" ++ toString s.remote.nextId))
      (Store.mk ("vs-" ++ toString s.remote.nextId) c []) hfa rfl
      (StoredVec.mk it.id (embedOne it.text) (dictInsert it.metadata "text" it.text))
      hvmem hvu rit hrit hritid
    simp only [] at hres
    rw [pyGet_dictInsert_self, eraseKey_dictInsert] at hres
    exact hres


lemma remoteSearch_notfound (r : Remote) (i : String) (qv : List Int) (k : Nat)
    (h : r.stores.find? (fun e => e.id == i) = none) :
    remoteSearch r (some i) qv k = [] := by
  simp only [remoteSearch]
  rw [h]

lemma remoteSearch_length_le (r : Remote) (idx : Option String) (qv : List Int) (k : Nat) :
    (remoteSearch r idx qv k).length ≤ k := by
  cases idx with
  | none => simp [remoteSearch]
  | some i =>
    cases h : r.stores.find? (fun st => st.id == i) with
    | none =>
      rw [remoteSearch_notfound r i qv k h]
      simp
    | some st =>
      rw [remoteSearch_found r i qv k st h]
      simp [List.length_take]

lemma list_items_fst_eq (s : St) (c : String) (a : Option String) :
    (list_items (St.mk a s.remote) c).fst = (list_items s c).fst := by
  cases s with
  | mk idx r => exact list_items_fst_index a idx r c

lemma get_some_shape (s : St) (c : String) (r : GetResult)
    (h : (get s c).fst = some r) :
    r.ids = [(list_items s c).fst.map (fun it => it.id)] ∧
    r.documents = [(list_items s c).fst.map (fun it => it.text)] ∧
    r.metadatas = [(list_items s c).fst.map (fun it => it.metadata)] := by
  cases hfind : s.remote.stores.find? (fun e => e.name == c) with
  | none =>
    rw [get_fst_none s c hfind] at h
    exact absurd h (by simp)
  | some e =>
    rw [get_fst_some s c e hfind] at h
    rw [list_items_fst_eq s c (some e.id)] at h
    split at h
    · exact absurd h (by simp)
    · injection h with h2
      rw [← h2]
      exact ⟨rfl, rfl, rfl⟩

lemma search_fst_none (s : St) (c : String) (vs : List (List Int)) (lim : Nat)
    (hfind : s.remote.stores.find? (fun e => e.name == c) = none) :
    (search s c vs lim).fst = Except.ok none := by
  unfold search has_collection
  rw [hfind]
  rfl

lemma search_fst_some_nil (s : St) (c : String) (lim : Nat) (e : Store)
    (hfind : s.remote.stores.find? (fun e => e.name == c) = some e) :
    (search s c [] lim).fst = Except.error PyError.indexError := by
  unfold search has_collection
  rw [hfind]
  rfl

lemma search_fst_some_cons (s : St) (c : String) (x : List Int) (xs : List (List Int))
    (lim : Nat) (e : Store)
    (hfind : s.remote.stores.find? (fun e => e.name == c) = some e) :
    (search s c (x :: xs) lim).fst =
      Except.ok (some (SearchResult.mk
        [(remoteSearch s.remote (some e.id) x lim).map (fun h => h.id)]
        [(remoteSearch s.remote (some e.id) x lim).map (fun h => h.score)]
        [(remoteSearch s.remote (some e.id) x lim).map (fun h => pyGet h.metadata "text")]
        [(remoteSearch s.remote (some e.id) x lim).map (fun h => eraseKey h.metadata "text")])) := by
  unfold search has_collection
  rw [hfind]
  rfl

lemma delete_collection_none (s : St) (c : String)
    (hfind : s.remote.stores.find? (fun e => e.name == c) = none) :
    delete_collection s c = s := by
  unfold delete_collection has_collection
  rw [hfind]
  rfl

lemma delete_collection_some (s : St) (c : String) (e : Store)
    (hfind : s.remote.stores.find? (fun e => e.name == c) = some e) :
    delete_collection s c =
      (if ((remoteSearch s.remote (some e.id) (List.replicate DUMMY_DIM 0) PAGE_SIZE).map
            (fun h => h.id)).isEmpty then St.mk (some e.id) s.remote
       else St.mk (some e.id)
         (Remote.mk (s.remote.stores.map (delIdsStore e.id
           ((remoteSearch s.remote (some e.id) (List.replicate DUMMY_DIM 0) PAGE_SIZE).map
             (fun h => h.id)))) s.remote.nextId)) := by
  unfold delete_collection has_collection
  rw [hfind]
  by_cases hE : ((remoteSearch s.remote (some e.id) (List.replicate DUMMY_DIM 0) PAGE_SIZE).map
      (fun h => h.id)).isEmpty
  · simp [hE, remoteDeleteIds]
  · simp [hE, remoteDeleteIds]

lemma delete_ids_some (s : St) (c : String) (e : Store) (idlist : List String)
    (hfind : s.remote.stores.find? (fun e => e.name == c) = some e)
    (hne : idlist.isEmpty = false) :
    delete s c (some idlist) none =
      St.mk (some e.id)
        (Remote.mk (s.remote.stores.map (delIdsStore e.id idlist)) s.remote.nextId) := by
  unfold delete has_collection truthy
  rw [hfind]
  simp [hne, remoteDeleteIds]

lemma foldl_deleteStore_stores (ids : List String) (r : Remote) :
    ((ids.foldl (fun r2 i => if i ≠ "" then remoteDeleteStore r2 i else r2) r)).stores =
      r.stores.filter (fun st => st.id == "" || !(ids.contains st.id)) := by
  induction ids generalizing r with
  | nil => simp
  | cons i is ih =>
    rw [List.foldl_cons]
    by_cases hi : i = ""
    · rw [if_neg (by simp [hi]), ih]
      apply List.filter_congr
      intro st _
      by_cases h : st.id = ""
      · simp [h]
      · have h4 : ¬ st.id = i := fun he => h (he.trans hi)
        simp [h, h4]
    · rw [if_pos hi, ih]
      unfold remoteDeleteStore
      rw [List.filter_filter]
      apply List.filter_congr
      intro st _
      by_cases h : st.id = i
      · have h3 : ¬ st.id = "" := fun he => hi (he ▸ h).symm
        simp [h, h3, hi]
      · have h2 : ¬ i = st.id := fun he => h he.symm
        simp [h, h2]

lemma listed_after_delIds (l : List Store) (n : Nat) (i : String) (idlist : List String)
    (c : String) (a : Option String) (st0 : Store)
    (hfind : l.find? (fun e => e.name == c) = some st0)
    (hid : st0.id = i) :
    ∀ rit ∈ (list_items (St.mk a (Remote.mk (l.map (delIdsStore i idlist)) n)) c).fst,
      idlist.contains rit.id = false := by
  intro rit hrit
  have hpres : ∀ st : Store,
      ((fun e : Store => e.name == c) (delIdsStore i idlist st)) =
        ((fun e : Store => e.name == c) st) := by
    intro st
    simp [delIdsStore_name]
  have hfind2 : (l.map (delIdsStore i idlist)).find? (fun e => e.name == c) =
      some (delIdsStore i idlist st0) := by
    rw [find?_map_of_pres (delIdsStore i idlist) _ hpres l, hfind]
    rfl
  rw [list_items_some _ _ _ hfind2] at hrit
  have hids : (delIdsStore i idlist st0).id = i := by rw [delIdsStore_id, hid]
  rw [hids] at hrit
  have hpres2 : ∀ st : Store,
      ((fun e : Store => e.id == i) (delIdsStore i idlist st)) =
        ((fun e : Store => e.id == i) st) := by
    intro st
    simp [delIdsStore_id]
  have hsome : ∃ st1, l.find? (fun e => e.id == i) = some st1 := by
    cases hf : l.find? (fun e => e.id == i) with
    | some st1 => exact ⟨st1, rfl⟩
    | none =>
      exfalso
      rw [List.find?_eq_none] at hf
      exact (by simpa [hid] using hf st0 (List.mem_of_find?_eq_some hfind))
  obtain ⟨st1, hst1⟩ := hsome
  have hst1id : st1.id = i := by simpa using List.find?_some hst1
  have hfind3 : (l.map (delIdsStore i idlist)).find? (fun e => e.id == i) =
      some (delIdsStore i idlist st1) := by
    rw [find?_map_of_pres (delIdsStore i idlist) _ hpres2 l, hst1]
    rfl
  rw [remoteSearch_found _ i _ _ _ hfind3] at hrit
  have hupd : (delIdsStore i idlist st1).items =
      st1.items.filter (fun w => !(idlist.contains w.id)) := by
    unfold delIdsStore
    rw [if_pos hst1id]
  rw [hupd] at hrit
  rcases List.mem_map.mp hrit with ⟨h, hh, hre⟩
  have hh2 := List.take_subset _ _ hh
  rcases List.mem_map.mp hh2 with ⟨w, hw, hwh⟩
  have hw2 : w ∈ st1.items.filter (fun w => !(idlist.contains w.id)) :=
    (mem_sortByKey _ w _).mp hw
  have hpw : (!(idlist.contains w.id)) = true := (List.mem_filter.mp hw2).2
  subst hre
  subst hwh
  simp only []
  simpa using hpw


lemma search_pair_none (s : St) (c : String) (vs : List (List Int)) (lim : Nat)
    (hfind : s.remote.stores.find? (fun e => e.name == c) = none) :
    search s c vs lim = (Except.ok none, s) := by
  unfold search has_collection
  rw [hfind]
  rfl

lemma search_pair_cons (s : St) (c : String) (x : List Int) (xs : List (List Int))
    (lim : Nat) (e : Store)
    (hfind : s.remote.stores.find? (fun e => e.name == c) = some e) :
    search s c (x :: xs) lim =
      (Except.ok (some (SearchResult.mk
        [(remoteSearch s.remote (some e.id) x lim).map (fun h => h.id)]
        [(remoteSearch s.remote (some e.id) x lim).map (fun h => h.score)]
        [(remoteSearch s.remote (some e.id) x lim).map (fun h => pyGet h.metadata "text")]
        [(remoteSearch s.remote (some e.id) x lim).map (fun h => eraseKey h.metadata "text")])),
       St.mk (some e.id) s.remote) := by
  unfold search has_collection
  rw [hfind]
  rfl

lemma reset_stores (s : St) :
    (reset s).remote.stores = s.remote.stores.filter (fun st => st.id == "") := by
  unfold reset
  simp only []
  rw [foldl_deleteStore_stores]
  apply List.filter_congr
  intro st hst
  have hm : st.id ∈ s.remote.stores.map (fun st2 => st2.id) := List.mem_map_of_mem _ hst
  simp [hm]

/-- C3: only the first vector of the supplied list is ever used by search:
for any two vector lists that agree on their first element, the calls
return the same result and leave the same state, so vectors beyond the
first have no effect on the output. -/
theorem c3_search_uses_only_first_vector (s : St) (c : String)
    (v1 v2 : List (List Int)) (lim : Nat) (x : List Int)
    (h1 : v1.head? = some x) (h2 : v2.head? = some x) :
    search s c v1 lim = search s c v2 lim := by
  cases v1 with
  | nil => exact absurd h1 (by simp)
  | cons a t1 =>
    cases v2 with
    | nil => exact absurd h2 (by simp)
    | cons b t2 =>
      have ha : a = x := by simpa using h1
      have hb : b = x := by simpa using h2
      cases hfind : s.remote.stores.find? (fun e => e.name == c) with
      | none => rw [search_pair_none s c _ lim hfind, search_pair_none s c _ lim hfind]
      | some e =>
        rw [search_pair_cons s c a t1 lim e hfind, search_pair_cons s c b t2 lim e hfind,
          ha, hb]

theorem c3_witness :
    ([[1], [2]] : List (List Int)).head? = some [1] ∧
    ([[1], [3]] : List (List Int)).head? = some [1] ∧
    search exSt1 "c" [[1], [2]] 5 = search exSt1 "c" [[1], [3]] 5 :=
  ⟨rfl, rfl, c3_search_uses_only_first_vector exSt1 "c" [[1], [2]] [[1], [3]] 5 [1] rfl rfl⟩

/-- C4: for a collection name carried by no remote store, has_collection
returns false and leaves the whole adapter state (including the cached
index) unchanged; when a store carries the name, it returns true and the
resulting state caches the matching store id in the index, with the remote
untouched. -/
theorem c4_has_collection_frame (s : St) (c : String) :
    ((∀ st ∈ s.remote.stores, st.name ≠ c) → has_collection s c = (false, s)) ∧
    ((∃ st ∈ s.remote.stores, st.name = c) →
      (has_collection s c).fst = true ∧
      ∃ st ∈ s.remote.stores, st.name = c ∧
        (has_collection s c).snd = St.mk (some st.id) s.remote) := by
  constructor
  · intro hall
    apply has_collection_none
    rw [List.find?_eq_none]
    intro st hst
    simpa using hall st hst
  · intro hex
    have hfst : (has_collection s c).fst = true := (has_collection_fst_iff s c).mpr hex
    refine ⟨hfst, ?_⟩
    cases hfind : s.remote.stores.find? (fun e => e.name == c) with
    | none =>
      rw [has_collection_none s c hfind] at hfst
      exact absurd hfst (by simp)
    | some e =>
      refine ⟨e, List.mem_of_find?_eq_some hfind, by simpa using List.find?_some hfind, ?_⟩
      rw [has_collection_some s c e hfind]

theorem c4_witness :
    has_collection exSt1 "d" = (false, exSt1) ∧
    ((has_collection exSt1 "c").fst = true ∧
      ∃ st ∈ exSt1.remote.stores, st.name = "c" ∧
        (has_collection exSt1 "c").snd = St.mk (some st.id) exSt1.remote) :=
  ⟨(c4_has_collection_frame exSt1 "d").1 (by decide),
   (c4_has_collection_frame exSt1 "c").2 (by decide)⟩

/-- C6 counterexample: the claim fails for a store whose listing id is the
empty string (Python-falsy): the `if vid:` guard in reset skips its DELETE
call, so the store survives and has_collection still returns true for its
name after reset. -/
theorem c6_counterexample :
    (∃ st ∈ exStEmptyId.remote.stores, st.name = "c") ∧
    (reset exStEmptyId).remote.stores = exStEmptyId.remote.stores ∧
    (has_collection (reset exStEmptyId) "c").fst = true :=
  ⟨by decide, by decide, by decide⟩

/-- C6 (amended): reset deletes every remote vector store whose listed id
is truthy (non-empty); when every store id is non-empty — as
provider-assigned ids are — no stores remain, and has_collection returns
false for every collection name afterwards (in particular for every
collection that existed before the call). -/
theorem c6_reset_deletes_everything (s : St) (c : String)
    (hids : ∀ st ∈ s.remote.stores, st.id ≠ "") :
    (reset s).remote.stores = [] ∧ has_collection (reset s) c = (false, reset s) := by
  have h1 : (reset s).remote.stores = [] := by
    rw [reset_stores, List.filter_eq_nil_iff]
    intro st hst
    simp [hids st hst]
  refine ⟨h1, ?_⟩
  apply has_collection_none
  rw [h1]
  rfl

theorem c6_witness :
    (∀ st ∈ exSt1.remote.stores, st.id ≠ "") ∧
    (reset exSt1).remote.stores = [] ∧
    has_collection (reset exSt1) "c" = (false, reset exSt1) :=
  ⟨by decide, (c6_reset_deletes_everything exSt1 "c" (by decide)).1,
   (c6_reset_deletes_everything exSt1 "c" (by decide)).2⟩

/-- C10: search with an existing collection is only defined for a
non-empty vector list: the vectors[0] access raises an IndexError exactly
on the empty list, a non-empty list always yields a normal result, and a
missing collection returns None without touching the vectors at all. -/
theorem c10_search_vectors_bounds (s : St) (c : String) (vs : List (List Int)) (lim : Nat) :
    ((s.remote.stores.find? (fun e => e.name == c) = none) →
      (search s c vs lim).fst = Except.ok none) ∧
    ((∃ e, s.remote.stores.find? (fun e2 => e2.name == c) = some e) → vs = [] →
      (search s c vs lim).fst = Except.error PyError.indexError) ∧
    (vs ≠ [] → ∃ res, (search s c vs lim).fst = Except.ok res) := by
  refine ⟨?_, ?_, ?_⟩
  · intro hfind
    exact search_fst_none s c vs lim hfind
  · rintro ⟨e, hfind⟩ rfl
    exact search_fst_some_nil s c lim e hfind
  · intro hne
    cases vs with
    | nil => exact absurd rfl hne
    | cons x xs =>
      cases hfind : s.remote.stores.find? (fun e => e.name == c) with
      | none => exact ⟨none, search_fst_none s c (x :: xs) lim hfind⟩
      | some e =>
        exact ⟨_, search_fst_some_cons s c x xs lim e hfind⟩

theorem c10_witness :
    (search exSt1 "d" [] 5).fst = Except.ok none ∧
    (search exSt1 "c" [] 5).fst = Except.error PyError.indexError ∧
    (∃ res, (search exSt1 "c" [[1]] 5).fst = Except.ok res) :=
  ⟨(c10_search_vectors_bounds exSt1 "d" [] 5).1 (by decide),
   (c10_search_vectors_bounds exSt1 "c" [] 5).2.1
     ⟨Store.mk "i0" "c" [StoredVec.mk "x" [] []], by decide⟩ rfl,
   (c10_search_vectors_bounds exSt1 "c" [[1]] 5).2.2 (by decide)⟩


lemma query_some_matches (s : St) (c : String) (f : Metadata) (lim : Option Nat)
    (r : GetResult) (h : (query s c f lim).fst = some r) :
    ∀ mds ∈ r.metadatas, ∀ md ∈ mds, matchesFilter f md = true := by
  cases hfind : s.remote.stores.find? (fun e => e.name == c) with
  | none =>
    rw [query_fst_none s c f lim hfind] at h
    exact absurd h (by simp)
  | some e =>
    rw [query_fst_some s c f lim e hfind] at h
    split at h
    · exact absurd h (by simp)
    · injection h with h2
      rw [← h2]
      intro mds hmds md hmd
      simp only [List.mem_singleton] at hmds
      subst hmds
      rcases List.mem_map.mp hmd with ⟨x, hx, he⟩
      subst he
      have hx2 := truncOpt_mem _ _ _ hx
      exact (List.mem_filter.mp hx2).2

/-- C1 counterexample: the claim fails when a filter value is Python None.
With filter {"k": None}, an item whose metadata lacks the key "k"
entirely is still returned by query, because dict.get yields None for the
missing key and None == None holds in Python. -/
theorem c1_counterexample :
    (query exSt1 "c" [("k", Val.null)] none).fst =
      some (GetResult.mk [["x"]] [[Val.null]] [[[]]]) ∧
    getKey ([] : Metadata) "k" = none := by
  exact ⟨by decide, by decide⟩

/-- C1 (amended): every item returned by query matches each filter
key/value pair under Python dict.get semantics: its metadata either holds
the key with exactly the filter value, or lacks the key while the filter
value is None. In particular an item missing a filter key is excluded
whenever that key's filter value is not None. -/
theorem c1_query_filter_conjunctive (s : St) (c : String) (f : Metadata)
    (lim : Option Nat) (r : GetResult)
    (h : (query s c f lim).fst = some r) :
    ∀ mds ∈ r.metadatas, ∀ md ∈ mds, ∀ kv ∈ f,
      getKey md kv.1 = some kv.2 ∨ (getKey md kv.1 = none ∧ kv.2 = Val.null) := by
  intro mds hmds md hmd kv hkv
  have hm := query_some_matches s c f lim r h mds hmds md hmd
  unfold matchesFilter at hm
  rw [List.all_eq_true] at hm
  have hb := hm kv hkv
  have hpg : pyGet md kv.1 = kv.2 := by simpa using hb
  unfold pyGet at hpg
  unfold getKey
  cases hg : md.find? (fun p => p.1 == kv.1) with
  | some p =>
    rw [hg] at hpg
    left
    simpa using hpg
  | none =>
    rw [hg] at hpg
    right
    have hp2 := hpg
    simp at hp2
    exact ⟨rfl, hp2.symm⟩

theorem c1_witness :
    (query exSt2 "c" [("k", Val.str "v")] none).fst =
      some (GetResult.mk [["x"]] [[Val.null]] [[[("k", Val.str "v")]]]) ∧
    getKey [("k", Val.str "v")] "k" = some (Val.str "v") := by
  refine ⟨by decide, ?_⟩
  have happ := c1_query_filter_conjunctive exSt2 "c" [("k", Val.str "v")] none
    (GetResult.mk [["x"]] [[Val.null]] [[[("k", Val.str "v")]]]) (by decide)
    [[("k", Val.str "v")]] (by decide) [("k", Val.str "v")] (by decide)
    ("k", Val.str "v") (by decide)
  rcases happ with h | h
  · exact h
  · exact absurd h.2 (by decide)

/-- C5 counterexample: with limit 0 the collection exists and the filter
matches items, yet query returns None — a third None case beyond the two
the claim allows (collection absent, filtered set empty). -/
theorem c5_counterexample :
    (query exSt2 "c" [] (some 0)).fst = none ∧
    exSt2.remote.stores.find? (fun e => e.name == "c") ≠ none ∧
    (list_items exSt2 "c").fst.filter (fun it => matchesFilter [] it.metadata) ≠ [] := by
  exact ⟨by decide, by decide, by decide⟩

/-- C5 (amended): query returns None exactly when the collection is absent
or the filtered match list truncated to the optional limit is empty (so
limit 0 yields None even when matches exist); get returns None exactly
when the collection is absent or the listed item set is empty; otherwise
both return a present GetResult. -/
theorem c5_none_iff (s : St) (c : String) (f : Metadata) (lim : Option Nat) :
    ((query s c f lim).fst = none ↔
      s.remote.stores.find? (fun e => e.name == c) = none ∨
      truncOpt lim ((list_items s c).fst.filter (fun it => matchesFilter f it.metadata)) = []) ∧
    ((get s c).fst = none ↔
      s.remote.stores.find? (fun e => e.name == c) = none ∨ (list_items s c).fst = []) := by
  cases hfind : s.remote.stores.find? (fun e => e.name == c) with
  | none =>
    constructor
    · rw [query_fst_none s c f lim hfind]
      simp
    · rw [get_fst_none s c hfind]
      simp
  | some e =>
    have hli := list_items_fst_eq s c (some e.id)
    constructor
    · rw [query_fst_some s c f lim e hfind, hli]
      constructor
      · intro hnone
        by_cases hE : (truncOpt lim ((list_items s c).fst.filter
            (fun it => matchesFilter f it.metadata))).isEmpty
        · right
          simpa using hE
        · rw [if_neg hE] at hnone
          exact absurd hnone (by simp)
      · intro hor
        rcases hor with h1 | h1
        · exact absurd h1 (by simp)
        · rw [h1]
          rfl
    · rw [get_fst_some s c e hfind, hli]
      constructor
      · intro hnone
        by_cases hE : (list_items s c).fst.isEmpty
        · right
          simpa using hE
        · rw [if_neg hE] at hnone
          exact absurd hnone (by simp)
      · intro hor
        rcases hor with h1 | h1
        · exact absurd h1 (by simp)
        · rw [h1]
          rfl

theorem c5_witness :
    (query exSt1 "d" [] none).fst = none ∧ (get exSt1 "d").fst = none :=
  ⟨(c5_none_iff exSt1 "d" [] none).1.mpr (Or.inl (by decide)),
   (c5_none_iff exSt1 "d" [] none).2.mpr (Or.inl (by decide))⟩

/-- C8: list_items returns at most PAGE_SIZE (1000) items; when the listed
store holds more than 1000 items, exactly 1000 are returned — a
page-sized prefix, strictly fewer than the store holds. -/
theorem c8_list_items_bounded (s : St) (c : String) :
    (list_items s c).fst.length ≤ PAGE_SIZE ∧
    (∀ st0 st, s.remote.stores.find? (fun e => e.name == c) = some st0 →
      s.remote.stores.find? (fun e => e.id == st0.id) = some st →
      PAGE_SIZE < st.items.length →
      (list_items s c).fst.length = PAGE_SIZE ∧
      (list_items s c).fst.length < st.items.length) := by
  constructor
  · cases hfind : s.remote.stores.find? (fun e => e.name == c) with
    | none =>
      rw [list_items_none s c hfind]
      simp
    | some e =>
      rw [list_items_some s c e hfind]
      simp only [List.length_map]
      exact remoteSearch_length_le s.remote (some e.id) (List.replicate DUMMY_DIM 0) PAGE_SIZE
  · intro st0 st hfind hfid hbig
    rw [list_items_some s c st0 hfind]
    rw [remoteSearch_found s.remote st0.id _ _ st hfid]
    simp only [List.length_map, List.length_take, length_sortByKey]
    constructor
    · exact Nat.min_eq_left (Nat.le_of_lt hbig)
    · rw [Nat.min_eq_left (Nat.le_of_lt hbig)]
      exact hbig

theorem c8_witness :
    exStBig.remote.stores.find? (fun e => e.name == "c") = some exBigStore ∧
    exStBig.remote.stores.find? (fun e => e.id == exBigStore.id) = some exBigStore ∧
    PAGE_SIZE < exBigStore.items.length ∧
    (list_items exStBig "c").fst.length = PAGE_SIZE := by
  have h1 : exStBig.remote.stores.find? (fun e => e.name == "c") = some exBigStore := rfl
  have h2 : exStBig.remote.stores.find? (fun e => e.id == exBigStore.id) = some exBigStore := rfl
  have h3 : PAGE_SIZE < exBigStore.items.length := by
    show PAGE_SIZE < (List.replicate 1001 (StoredVec.mk "x" [] [])).length
    rw [List.length_replicate]
    decide
  exact ⟨h1, h2, h3, ((c8_list_items_bounded exStBig "c").2 exBigStore exBigStore h1 h2 h3).1⟩


/-- C9: delete_collection never removes the remote store resource: the
listed (id, name) pairs of all stores are unchanged, and a collection that
existed before the call still exists afterwards. -/
theorem c9_delete_collection_keeps_store (s : St) (c : String) :
    (delete_collection s c).remote.stores.map (fun st => (st.id, st.name)) =
      s.remote.stores.map (fun st => (st.id, st.name)) ∧
    ((has_collection s c).fst = true →
      (has_collection (delete_collection s c) c).fst = true) := by
  have hpairs : (delete_collection s c).remote.stores.map (fun st => (st.id, st.name)) =
      s.remote.stores.map (fun st => (st.id, st.name)) := by
    cases hfind : s.remote.stores.find? (fun e => e.name == c) with
    | none => rw [delete_collection_none s c hfind]
    | some e =>
      rw [delete_collection_some s c e hfind]
      split
      · rfl
      · simp only [List.map_map]
        apply List.map_congr_left
        intro st _
        simp [Function.comp, delIdsStore_id, delIdsStore_name]
  refine ⟨hpairs, ?_⟩
  intro hfst
  have hnames : (delete_collection s c).remote.stores.map (fun st => st.name) =
      s.remote.stores.map (fun st => st.name) := by
    have h2 := congrArg (List.map (fun p : String × String => p.2)) hpairs
    simpa [List.map_map, Function.comp] using h2
  rw [has_collection_fst_iff] at hfst ⊢
  rcases hfst with ⟨st, hst, hname⟩
  have hmem : st.name ∈ (delete_collection s c).remote.stores.map (fun st2 => st2.name) := by
    rw [hnames]
    exact List.mem_map_of_mem _ hst
  rcases List.mem_map.mp hmem with ⟨st2, hst2, he⟩
  exact ⟨st2, hst2, by rw [he, hname]⟩

theorem c9_witness :
    (has_collection exSt2 "c").fst = true ∧
    (has_collection (delete_collection exSt2 "c") "c").fst = true :=
  ⟨by decide, (c9_delete_collection_keeps_store exSt2 "c").2 (by decide)⟩

/-- C7: after delete(C, ids=[x]) on an existing collection C, get(C) never
returns the id x in any of its id lists. -/
theorem c7_delete_ids_then_get (s : St) (c x : String)
    (hex : ∃ st ∈ s.remote.stores, st.name = c) :
    ∀ r, (get (delete s c (some [x]) none) c).fst = some r →
      ∀ l2 ∈ r.ids, x ∉ l2 := by
  intro r hr l2 hl2 hxmem
  cases hfind : s.remote.stores.find? (fun e => e.name == c) with
  | none =>
    rw [List.find?_eq_none] at hfind
    rcases hex with ⟨st, hst, hname⟩
    exact absurd (by simpa using hname) (by simpa using hfind st hst)
  | some e =>
    rw [delete_ids_some s c e [x] hfind rfl] at hr
    obtain ⟨hids, h2, h3⟩ := get_some_shape _ c r hr
    rw [hids] at hl2
    simp only [List.mem_singleton] at hl2
    subst hl2
    rcases List.mem_map.mp hxmem with ⟨rit, hritmem, he⟩
    have hdel := listed_after_delIds s.remote.stores s.remote.nextId e.id [x] c
      (some e.id) e hfind rfl rit hritmem
    rw [he] at hdel
    simp at hdel

theorem c7_witness :
    (∃ st ∈ exSt2.remote.stores, st.name = "c") ∧
    (get (delete exSt2 "c" (some ["x"]) none) "c").fst =
      some (GetResult.mk [["y"]] [[Val.null]] [[([] : Metadata)]]) ∧
    "x" ∉ (["y"] : List String) :=
  ⟨by decide, by decide,
   c7_delete_ids_then_get exSt2 "c" "x" (by decide)
     (GetResult.mk [["y"]] [[Val.null]] [[([] : Metadata)]]) (by decide) ["y"] (by decide)⟩

/-- C2: round-trip — an item inserted through insert (which, like upsert,
delegates to add_items_to_collection) with text T and metadata M is read
back by list_items and by get with text == T and metadata == M minus the
reserved internal "text" key; the inserted batch carries caller-unique ids
as the spec requires. -/
theorem c2_round_trip (embedOne : Val → List Int) (s : St) (c : String)
    (items : List VectorItem) (it : VectorItem)
    (hmem : it ∈ items)
    (huniq : ∀ it2 ∈ items, it2.id = it.id → it2 = it) :
    (∀ rit ∈ (list_items (insert embedOne s c items) c).fst,
       rit.id = it.id → rit.text = it.text ∧ rit.metadata = eraseKey it.metadata "text") ∧
    (∀ r, (get (insert embedOne s c items) c).fst = some r →
       ∀ p ∈ ((r.ids.headD []).zip ((r.documents.headD []).zip (r.metadatas.headD []))),
         p.1 = it.id → p.2.1 = it.text ∧ p.2.2 = eraseKey it.metadata "text") := by
  have hmain := listed_after_add embedOne s c items it hmem huniq
  constructor
  · exact hmain
  · intro r hr p hp hpid
    obtain ⟨hids, hdocs, hmds⟩ := get_some_shape _ c r hr
    rw [hids, hdocs, hmds] at hp
    simp only [List.headD_cons] at hp
    rw [List.zip_map'] at hp
    rw [List.zip_map'] at hp
    rcases List.mem_map.mp hp with ⟨rit, hritmem, he⟩
    subst he
    exact hmain rit hritmem hpid

theorem c2_witness :
    exItem ∈ [exItem] ∧
    VectorItem.mk "x" (Val.str "T") [0] [("a", Val.str "b")] ∈
      (list_items (insert embed0 exStEmpty "c" [exItem]) "c").fst ∧
    Val.str "T" = exItem.text ∧
    [("a", Val.str "b")] = eraseKey exItem.metadata "text" := by
  refine ⟨by decide, by decide, ?_⟩
  have h := (c2_round_trip embed0 exStEmpty "c" [exItem] exItem (by decide) (by decide)).1
    (VectorItem.mk "x" (Val.str "T") [0] [("a", Val.str "b")]) (by decide) (by decide)
  exact ⟨h.1.symm, h.2.symm⟩

end OpenAIStore
